import Mathlib

/-!
Verification development for the IronBee eudoxus (ee) operator module and the
Lua module bridge.

The definitions below are a shallow embedding of the C sources:
  - the ee operator module (ee_operator_execute_common, the nonstream and
    stream execute entry points, ee_first_match_callback, the per-transaction
    state store, load_eudoxus_pattern_param2, ee_operator_create, and
    ee_tx_finished_handler);
  - the Lua bridge (modlua_module_load_wire_callbacks, modlua_logevent,
    modlua_tx).

The eudoxus automaton engine itself (ironautomata library) is not part of the
sources; it is modelled from the spec as a deterministic multi-pattern matcher
executed incrementally over byte input, with a per-match callback that can
continue or stop the scan, preserving its cursor between calls.  External
engine services (hash, hook registry, resource pool, allocation) are modelled
as always-succeeding unless a claim depends on a failure path, in which case
the outcome is an explicit boolean or status parameter.
-/

set_option maxRecDepth 4000

/-- IronBee status codes used by the embedded functions (ib_status_t). -/
inductive Status where
  | ok
  | eexist
  | einval
  | enoent
  | ealloc
  | enotimpl
  | eunknown
  | eother
  deriving DecidableEq, Repr

/-- Commands a eudoxus match callback may return (ia_eudoxus_command_t). -/
inductive IaCommand where
  | cont
  | stop
  | error
  deriving DecidableEq, Repr

/-- Results of running the eudoxus automaton (ia_eudoxus_result_t). -/
inductive IaResult where
  | iaOk
  | iaStop
  | iaEnd
  | iaError
  deriving DecidableEq, Repr

/-- A capture collection; only item 0 is ever written by this module
(ib_capture_set_item with index 0 after ib_capture_clear). -/
structure CaptureColl where
  item0 : Option (List Nat)
  deriving DecidableEq, Repr

/-- Callback data for ee match (struct ee_callback_data_t).  The tx pointer
carried by the C struct is only used for logging and allocation and is not
modelled. -/
structure CbData where
  capture : Option CaptureColl
  match_len : Nat
  deriving DecidableEq, Repr

/-- A eudoxus automaton execution cursor (ia_eudoxus_state_t).
Modelled from the spec: the automaton is executed incrementally; the cursor
holds the current automaton node and, after a callback stopped the scan, the
unconsumed remainder of the last input so that matching can be resumed. -/
structure IaState where
  cur : Nat
  pending : List Nat
  deriving DecidableEq, Repr

/-- A precompiled eudoxus automaton (ia_eudoxus_t).
Modelled from the spec: a deterministic multi-pattern matcher over bytes; a
node may carry an output, the literal matched substring reported to the match
callback. -/
structure Eudoxus where
  start : Nat
  next : Nat → Nat → Option Nat
  output : Nat → Option (List Nat)

/-- Per-tx inter-call data for the streaming operator (struct ee_tx_data_t).
A destroyed automaton state (ia_eudoxus_destroy_state followed by a NULL
assignment) is modelled as none. -/
structure EeTxData where
  eudoxus_state : Option IaState
  ee_cbdata : CbData
  end_of_automata : Bool
  deriving DecidableEq, Repr

/-- Operator instance data (struct ee_operator_data_t): a unique id and the
automaton the instance executes. -/
structure EeOp where
  id : String
  eudoxus : Eudoxus

/-- Eudoxus first match callback (ee_first_match_callback).  If a match was
already recorded (match_len > 0) the stored length is reset to 0 and the scan
continues; otherwise the match length is recorded, the capture collection (if
any) is cleared and item 0 is set to the matched bytes, and the scan stops.
The capture-construction error paths are allocation failures and are modelled
as succeeding. -/
def eeFirstMatchCallback (cb : CbData) (out : List Nat) : IaCommand × CbData :=
  if 0 < cb.match_len then
    (IaCommand.cont, { cb with match_len := 0 })
  else
    match cb.capture with
    | none => (IaCommand.stop, { cb with match_len := out.length })
    | some _ =>
      (IaCommand.stop,
        { capture := some ⟨some out⟩, match_len := out.length })

/-- Result of one ia_eudoxus_execute call: the automaton result code, the
updated cursor and the updated callback data. -/
structure ExecOut where
  result : IaResult
  state : IaState
  cb : CbData
  deriving DecidableEq, Repr

/-- Byte-by-byte automaton walk underlying ia_eudoxus_execute.
Modelled from the spec: each consumed byte follows a transition; entering a
node with an output invokes the callback, whose command continues or stops
the scan; a byte with no transition ends the automaton (IA_EUDOXUS_END);
exhausting the input without stopping returns IA_EUDOXUS_OK. -/
def iaExecGo (e : Eudoxus) (f : CbData → List Nat → IaCommand × CbData) :
    Nat → List Nat → CbData → ExecOut
  | cur, [], cb => ⟨IaResult.iaOk, ⟨cur, []⟩, cb⟩
  | cur, b :: rest, cb =>
    match e.next cur b with
    | none => ⟨IaResult.iaEnd, ⟨cur, b :: rest⟩, cb⟩
    | some s' =>
      match e.output s' with
      | none => iaExecGo e f s' rest cb
      | some out =>
        match f cb out with
        | (IaCommand.stop, cb') => ⟨IaResult.iaStop, ⟨s', rest⟩, cb'⟩
        | (IaCommand.error, cb') => ⟨IaResult.iaError, ⟨s', rest⟩, cb'⟩
        | (IaCommand.cont, cb') => iaExecGo e f s' rest cb'

/-- Run the automaton over input (ia_eudoxus_execute).  Passing some bytes
installs fresh input; passing none resumes the input left pending by an
earlier stop, exactly as the C code calls ia_eudoxus_execute with NULL after
a partial match. -/
def ia_eudoxus_execute (e : Eudoxus) (f : CbData → List Nat → IaCommand × CbData)
    (st : IaState) (cb : CbData) (input : Option (List Nat)) : ExecOut :=
  match input with
  | some bs => iaExecGo e f st.cur bs cb
  | none => iaExecGo e f st.cur st.pending cb

/-- Input field shapes relevant to the operator (ib_ftype_t). -/
inductive IbField where
  | nulstr (bs : List Nat)
  | bytestr (bs : List Nat)
  | list
  | num
  | float
  | sbuffer
  deriving DecidableEq, Repr

/-- Extract the input bytes from a field as ee_operator_execute_common does:
NUL-terminated strings are measured with strlen, byte strings use their
length, a list input is not implemented, anything else is invalid. -/
def fieldBytes : IbField → Sum (List Nat) Status
  | IbField.nulstr bs => Sum.inl (bs.takeWhile (fun b => b ≠ 0))
  | IbField.bytestr bs => Sum.inl bs
  | IbField.list => Sum.inr Status.enotimpl
  | _ => Sum.inr Status.einval

/-- Result of the retry loop in ee_operator_execute_common: status, operator
result, updated cursor and callback data, and whether end-of-automata was
reported on this call. -/
structure LoopOut where
  status : Status
  result : Int
  state : IaState
  cb : CbData
  hitEnd : Bool
  deriving DecidableEq, Repr

/-- The for(;;) loop of ee_operator_execute_common.  On IA_EUDOXUS_STOP with
full_match set, the match is accepted only when the recorded match length
equals the input length; otherwise input is set to NULL and the automaton is
resumed.  IA_EUDOXUS_END latches end-of-automata.  The loop is fueled; each
resume consumes input, so fuel input length + 1 (as supplied by
ee_operator_execute_common below) never runs out. -/
def eeLoopGo (e : Eudoxus) :
    Nat → IaState → CbData → Option (List Nat) → Nat → Bool → LoopOut
  | 0, st, cb, _, _, _ => ⟨Status.eunknown, 0, st, cb, false⟩
  | Nat.succ fuel, st, cb, input, input_len, full_match =>
    match ia_eudoxus_execute e eeFirstMatchCallback st cb input with
    | ⟨IaResult.iaStop, st', cb'⟩ =>
      if full_match then
        if cb'.match_len = input_len then ⟨Status.ok, 1, st', cb', false⟩
        else eeLoopGo e fuel st' cb' none input_len full_match
      else ⟨Status.ok, 1, st', cb', false⟩
    | ⟨IaResult.iaEnd, st', cb'⟩ => ⟨Status.ok, 0, st', cb', true⟩
    | ⟨IaResult.iaError, st', cb'⟩ => ⟨Status.eunknown, 0, st', cb', false⟩
    | ⟨IaResult.iaOk, st', cb'⟩ => ⟨Status.ok, 0, st', cb', false⟩

/-- Result of ee_operator_execute_common: status, *result, and the
per-transaction data as left by the call (the C code mutates it through
pointers). -/
structure CommonOut where
  status : Status
  result : Int
  data : EeTxData
  deriving DecidableEq, Repr

/-- Helper for stream and non-stream execution (ee_operator_execute_common).
Sets *result to 0, extracts the input bytes from the field, does nothing when
end-of-automata was already latched, and otherwise runs the automaton loop. -/
def ee_operator_execute_common (e : Eudoxus) (data : EeTxData) (field : IbField)
    (full_match : Bool) : CommonOut :=
  match fieldBytes field with
  | Sum.inr st => ⟨st, 0, data⟩
  | Sum.inl input =>
    if data.end_of_automata then ⟨Status.ok, 0, data⟩
    else
      match data.eudoxus_state with
      | none => ⟨Status.eunknown, 0, data⟩
      | some st =>
        let l := eeLoopGo e (input.length + 1) st data.ee_cbdata (some input)
          input.length full_match
        ⟨l.status, l.result,
          ⟨some l.state, l.cb, data.end_of_automata || l.hitEnd⟩⟩

/-- Result of a non-stream operator execution: status, *result and the final
callback data (holding capture effects).  The transient automaton state is
destroyed before returning, as in ee_match_operator_execute_nonstream. -/
structure NonstreamOut where
  status : Status
  result : Int
  cb : CbData
  deriving DecidableEq, Repr

/-- Common code for the ee and ee_match operators
(ee_match_operator_execute_nonstream): creates transient callback data with
match_len 0 and a fresh automaton state, runs the common helper, and destroys
the state. -/
def ee_match_operator_execute_nonstream (op : EeOp) (field : IbField)
    (capture : Option CaptureColl) (full_match : Bool) : NonstreamOut :=
  let local_cbdata : CbData := ⟨capture, 0⟩
  let local_data : EeTxData := ⟨some ⟨op.eudoxus.start, []⟩, local_cbdata, false⟩
  let r := ee_operator_execute_common op.eudoxus local_data field full_match
  ⟨r.status, r.result, r.data.ee_cbdata⟩

/-- Execute the ee operator (ee_operator_execute): non-stream, first match
wins regardless of length. -/
def ee_operator_execute (op : EeOp) (field : IbField)
    (capture : Option CaptureColl) : NonstreamOut :=
  ee_match_operator_execute_nonstream op field capture false

/-- Execute the ee_match operator (ee_match_operator_execute): non-stream,
a match counts only if it covers the entire input. -/
def ee_match_operator_execute (op : EeOp) (field : IbField)
    (capture : Option CaptureColl) : NonstreamOut :=
  ee_match_operator_execute_nonstream op field capture true

/-- A transaction's module-keyed store, restricted to this module's slot
(ib_tx_get_module_data / ib_tx_set_module_data): none means the module has
stored nothing yet; the stored value is the operator-state hash, an
association list keyed by the operator instance id. -/
structure Tx where
  modData : Option (List (String × EeTxData))
  deriving DecidableEq, Repr

/-- Exact-key lookup in the operator-state hash (ib_hash_get_ex on the hash
created with ib_hash_create). -/
def hashGet : List (String × EeTxData) → String → Option EeTxData
  | [], _ => none
  | (k', v) :: t, k => if k' = k then some v else hashGet t k

/-- Exact-key insert-or-replace in the operator-state hash (ib_hash_set_ex). -/
def hashSet : List (String × EeTxData) → String → EeTxData →
    List (String × EeTxData)
  | [], k, v => [(k, v)]
  | (k', v') :: t, k, v =>
    if k' = k then (k, v) :: t else (k', v') :: hashSet t k v

/-- Get or create the hash holding the operator state
(get_or_create_operator_data_hash); hash creation is an allocation and is
modelled as succeeding. -/
def get_or_create_operator_data_hash (tx : Tx) :
    List (String × EeTxData) × Tx :=
  match tx.modData with
  | some h => (h, tx)
  | none => ([], ⟨some []⟩)

/-- Return the per-transaction state for the operator (get_ee_tx_data):
looks the instance id up in the module's hash. -/
def get_ee_tx_data (tx : Tx) (op : EeOp) :
    Option EeTxData × List (String × EeTxData) × Tx :=
  let (h, tx') := get_or_create_operator_data_hash tx
  (hashGet h op.id, h, tx')

/-- Result of a streaming operator execution: status, *result, and the
transaction as left by the call. -/
structure StreamOut where
  status : Status
  result : Int
  tx : Tx
  deriving DecidableEq, Repr

/-- Execute the ee operator in streaming fashion (ee_operator_execute_stream).
The per-transaction state is retrieved from the transaction's module-keyed
store under the instance id; if absent it is created with a fresh automaton
cursor and the capture argument of this first call, and stored.  The common
helper then feeds the chunk into that cursor; because the C code reaches the
state through pointers, its updates are written back into the store here.
The C code does not initialize the freshly allocated match_len; the model
takes the zero-filled allocation behavior. -/
def ee_operator_execute_stream (op : EeOp) (tx : Tx) (field : IbField)
    (capture : Option CaptureColl) : StreamOut :=
  match get_ee_tx_data tx op with
  | (some data, h, _) =>
    let r := ee_operator_execute_common op.eudoxus data field false
    ⟨r.status, r.result, ⟨some (hashSet h op.id r.data)⟩⟩
  | (none, h, _) =>
    let ee_cbdata : CbData := ⟨capture, 0⟩
    let data : EeTxData := ⟨some ⟨op.eudoxus.start, []⟩, ee_cbdata, false⟩
    let h' := hashSet h op.id data
    let r := ee_operator_execute_common op.eudoxus data field false
    ⟨r.status, r.result, ⟨some (hashSet h' op.id r.data)⟩⟩

/-- Destroy one stored automaton state, as the iteration body of
ee_tx_finished_handler does (ia_eudoxus_destroy_state then NULL). -/
def destroyEntry (d : EeTxData) : EeTxData :=
  { d with eudoxus_state := none }

/-- Result of the transaction-finished handler: returned status and the
transaction afterwards. -/
structure HandlerOut where
  status : Status
  tx : Tx
  deriving DecidableEq, Repr

/-- Destroy the eudoxus state when the transaction is complete
(ee_tx_finished_handler).  If the module stored nothing there is nothing to
do.  Otherwise the handler allocates a scratch pool and an iterator; if that
allocation fails it returns the allocation error without touching the stored
states (allocOk is the outcome of those allocations).  On success every
stored state is destroyed. -/
def ee_tx_finished_handler (allocOk : Bool) (tx : Tx) : HandlerOut :=
  match tx.modData with
  | none => ⟨Status.ok, tx⟩
  | some hash =>
    if allocOk then
      ⟨Status.ok, ⟨some (hash.map (fun p => (p.1, destroyEntry p.2)))⟩⟩
    else ⟨Status.ealloc, tx⟩

/-- Byte-level lowercasing as the nocase hash applies to key bytes. -/
def lowerByte (b : Nat) : Nat :=
  if 65 ≤ b ∧ b ≤ 90 then b + 32 else b

/-- Case-insensitive key comparison of the nocase pattern hash. -/
def nocaseEq (k k' : List Nat) : Bool :=
  k.map lowerByte = k'.map lowerByte

/-- The LoadEudoxus pattern table: symbolic name (a byte string) to loaded
automaton.  The hash is created with ib_hash_create_nocase, so keys compare
case-insensitively. -/
def patternHashGet (h : List (List Nat × Eudoxus)) (k : List Nat) :
    Option Eudoxus :=
  match h with
  | [] => none
  | (k', v) :: t =>
    if nocaseEq k' k then some v else patternHashGet t k

/-- Case-insensitive insert-or-replace for the pattern table (ib_hash_set on
a nocase hash). -/
def patternHashSet (h : List (List Nat × Eudoxus)) (k : List Nat)
    (v : Eudoxus) : List (List Nat × Eudoxus) :=
  match h with
  | [] => [(k, v)]
  | (k', v') :: t =>
    if nocaseEq k' k then (k, v) :: t
    else (k', v') :: patternHashSet t k v

/-- Load a eudoxus pattern under a symbolic name
(load_eudoxus_pattern_param2).  A name already present in the pattern table
is rejected with already-exists, leaving the table unchanged.  Afterwards the
automata file is checked for readability (accessOk), compiled
(createOk) — both failures are invalid — and an engine-lifetime cleanup is
registered (cleanupOk, an allocation).  Only then is the table extended. -/
def load_eudoxus_pattern_param2 (h : List (List Nat × Eudoxus))
    (pattern_name : List Nat) (accessOk createOk cleanupOk : Bool)
    (automaton : Eudoxus) : Status × List (List Nat × Eudoxus) :=
  match patternHashGet h pattern_name with
  | some _ => (Status.eexist, h)
  | none =>
    if !accessOk then (Status.einval, h)
    else if !createOk then (Status.einval, h)
    else if !cleanupOk then (Status.ealloc, h)
    else (Status.ok, patternHashSet h pattern_name automaton)

/-- Create an instance of the ee operator (ee_operator_create): looks the
automaton name up in the pattern table; an undefined name is not-found.  The
fresh unique id (ib_uuid_create_v4) is supplied as a parameter. -/
def ee_operator_create (h : List (List Nat × Eudoxus))
    (parameters : List Nat) (uuid : String) : Status × Option EeOp :=
  match patternHashGet h parameters with
  | none => (Status.enoent, none)
  | some e => (Status.ok, some ⟨uuid, e⟩)

/-- The trie automaton for the single pattern "GET" (bytes 71 69 84), as the
spec's examples use: a compiled automata whose only output is the matched
substring "GET" at its accepting node. -/
def getAutomaton : Eudoxus where
  start := 0
  next := fun s b =>
    if s = 0 ∧ b = 71 then some 1
    else if s = 1 ∧ b = 69 then some 2
    else if s = 2 ∧ b = 84 then some 3
    else none
  output := fun s => if s = 3 then some [71, 69, 84] else none

/-- An operator instance over the GET automaton. -/
def getOp : EeOp := ⟨"op-ee-1", getAutomaton⟩

/-- The input "GET /" as bytes. -/
def inputGETsp : List Nat := [71, 69, 84, 32, 47]

/-- Hook shapes of engine states (ib_state_hook_type). -/
inductive HookType where
  | null
  | invalid
  | ctx
  | conn
  | tx
  | txdata
  | reqline
  | respline
  | header
  deriving DecidableEq, Repr

/-- The native dispatch callbacks the Lua bridge registers, one per hook
shape, plus the dedicated logevent dispatcher. -/
inductive LuaDispatcher where
  | modlua_null
  | modlua_ctx
  | modlua_conn
  | modlua_tx
  | modlua_txdata
  | modlua_reqline
  | modlua_respline
  | modlua_header
  deriving DecidableEq, Repr

/-- The dispatcher modlua_module_load_wire_callbacks registers for each hook
shape; an invalid shape only logs an error and registers nothing. -/
def dispatcherFor : HookType → Option LuaDispatcher
  | HookType.null => some LuaDispatcher.modlua_null
  | HookType.invalid => none
  | HookType.ctx => some LuaDispatcher.modlua_ctx
  | HookType.conn => some LuaDispatcher.modlua_conn
  | HookType.tx => some LuaDispatcher.modlua_tx
  | HookType.txdata => some LuaDispatcher.modlua_txdata
  | HookType.reqline => some LuaDispatcher.modlua_reqline
  | HookType.respline => some LuaDispatcher.modlua_respline
  | HookType.header => some LuaDispatcher.modlua_header

/-- The per-state loop of modlua_module_load_wire_callbacks over the given
states.  For each state the bridge probes the Lua module for a handler
(module_has_callback); on IB_OK it registers the dispatcher matching the
state's hook shape (the registry call is modelled as succeeding and is
recorded); on IB_ENOENT it moves on; any other probe result aborts the loop
with that status, keeping the registrations already made. -/
def wireStates (ht : Nat → HookType) (probe : Nat → Status) :
    List Nat → Status × List (Nat × LuaDispatcher)
  | [] => (Status.ok, [])
  | s :: rest =>
    if probe s = Status.ok then
      match dispatcherFor (ht s) with
      | some d =>
        match wireStates ht probe rest with
        | (st, l) => (st, (s, d) :: l)
      | none => wireStates ht probe rest
    else if probe s = Status.enoent then wireStates ht probe rest
    else (probe s, [])

/-- Result of wiring a Lua module's callbacks: the returned status, whether
the dedicated logevent handler was registered, and the state hooks
registered, in order. -/
structure WireOut where
  status : Status
  logevent_registered : Bool
  hooks : List (Nat × LuaDispatcher)
  deriving DecidableEq, Repr

/-- Wire a loaded Lua module's handlers into the engine
(modlua_module_load_wire_callbacks).  The module is first probed for a
dedicated logevent handler (modlua_has_callback_logevents); exactly on IB_OK
the modlua_logevent dispatcher is registered against the logevent
notification.  Then every state below n is probed and wired by shape. -/
def modlua_module_load_wire_callbacks (n : Nat) (ht : Nat → HookType)
    (probe : Nat → Status) (probeLog : Status) : WireOut :=
  ⟨(wireStates ht probe (List.range n)).1,
   decide (probeLog = Status.ok),
   (wireStates ht probe (List.range n)).2⟩

/-- One bridged dispatch outcome: the returned status, whether a runtime
instance was acquired from the pool, and whether it was released back. -/
structure DispatchOut where
  status : Status
  acquired : Bool
  released : Bool
  deriving DecidableEq, Repr

/-- Outcomes of the steps modlua_logevent takes, in program order.  Status
parameters are the results of the corresponding engine calls; booleans are
the Lua-stack checks. -/
structure LogeventPath where
  cfg_rc : Status
  acquire_rc : Status
  checkstack_ok : Bool
  contains_module : Bool
  reload_main_rc : Status
  reload_except_rc : Status
  modlua_is_nil : Bool
  modlua_is_table : Bool
  dispatch_is_nil : Bool
  dispatch_is_function : Bool
  push_handler_rc : Status
  pcall_rc : Status
  release_rc : Status
  deriving DecidableEq, Repr

/-- The exit block shared by the dispatch functions: release the runtime and,
when the body succeeded but the release failed, surface the release error. -/
def dispatchExit (rc release_rc : Status) : DispatchOut :=
  if release_rc ≠ Status.ok ∧ rc = Status.ok then ⟨release_rc, true, true⟩
  else ⟨rc, true, true⟩

/-- Callback for logevents (modlua_logevent), traced step by step.  After a
successful acquire, the checkstack failure and the modlua-global and
dispatch-field checks return directly instead of jumping to the exit block,
so those paths never release the acquired runtime; the reload, push-handler
and pcall failures go through the exit block. -/
def modlua_logevent (p : LogeventPath) : DispatchOut :=
  if p.cfg_rc ≠ Status.ok then ⟨p.cfg_rc, false, false⟩
  else if p.acquire_rc ≠ Status.ok then ⟨p.acquire_rc, false, false⟩
  else if !p.checkstack_ok then ⟨Status.eother, true, false⟩
  else if !p.contains_module ∧ p.reload_main_rc ≠ Status.ok then
    dispatchExit p.reload_main_rc p.release_rc
  else if p.reload_except_rc ≠ Status.ok then
    dispatchExit p.reload_except_rc p.release_rc
  else if p.modlua_is_nil then ⟨Status.einval, true, false⟩
  else if !p.modlua_is_table then ⟨Status.einval, true, false⟩
  else if p.dispatch_is_nil then ⟨Status.einval, true, false⟩
  else if !p.dispatch_is_function then ⟨Status.einval, true, false⟩
  else if p.push_handler_rc ≠ Status.ok then
    dispatchExit p.push_handler_rc p.release_rc
  else if p.pcall_rc ≠ Status.ok then dispatchExit p.pcall_rc p.release_rc
  else dispatchExit Status.ok p.release_rc

/-- Outcomes of the steps modlua_tx takes, in program order. -/
structure TxPath where
  cfg_rc : Status
  acquire_rc : Status
  setup_rc : Status
  pcall_rc : Status
  release_rc : Status
  deriving DecidableEq, Repr

/-- Dispatch a transaction state into a Lua module (modlua_tx): config
lookup, acquire, callback setup, pcall; every failure after the acquire goes
through the exit block, which releases the runtime. -/
def modlua_tx (p : TxPath) : DispatchOut :=
  if p.cfg_rc ≠ Status.ok then ⟨p.cfg_rc, false, false⟩
  else if p.acquire_rc ≠ Status.ok then ⟨p.acquire_rc, false, false⟩
  else if p.setup_rc ≠ Status.ok then dispatchExit p.setup_rc p.release_rc
  else if p.pcall_rc ≠ Status.ok then dispatchExit p.pcall_rc p.release_rc
  else dispatchExit Status.ok p.release_rc

/-- A LogeventPath in which every engine call succeeds and every Lua check
passes. -/
def logeventAllOk : LogeventPath :=
  ⟨Status.ok, Status.ok, true, true, Status.ok, Status.ok,
   false, true, false, true, Status.ok, Status.ok, Status.ok⟩

/-- The modlua_tx dispatcher releases the runtime on every path on which it
acquired one, whatever the later steps return. -/
theorem modlua_tx_releases_after_acquire (p : TxPath)
    (h : (modlua_tx p).acquired = true) : (modlua_tx p).released = true := by
  have hra : (modlua_tx p).released = (modlua_tx p).acquired := by
    unfold modlua_tx dispatchExit
    split <;> (try split) <;> (try split) <;> (try split) <;> (try split) <;>
      rfl
  rw [hra, h]

/-- In a full-match run of the retry loop, a result of 1 is produced only at
the comparison that found the recorded match length equal to the input
length, so the final callback data records exactly the input length. -/
theorem eeLoopGo_full_match_len (e : Eudoxus) :
    ∀ (fuel : Nat) (st : IaState) (cb : CbData) (input : Option (List Nat))
      (ilen : Nat) (out : LoopOut),
      eeLoopGo e fuel st cb input ilen true = out →
      out.result = 1 → out.cb.match_len = ilen := by
  intro fuel
  induction fuel with
  | zero =>
    intro st cb input ilen out heq hres
    simp only [eeLoopGo] at heq
    subst heq
    simp at hres
  | succ n ih =>
    intro st cb input ilen out heq hres
    simp only [eeLoopGo] at heq
    split at heq
    · split at heq
      · split at heq
        · subst heq
          assumption
        · exact ih _ _ _ _ _ heq hres
      · simp at *
    · subst heq; simp at hres
    · subst heq; simp at hres
    · subst heq; simp at hres

/-- A scan pass (one automaton run with the first-match callback) that stops
has recorded exactly one match: the output at the node where it stopped, and
the stored match length is that output's length. -/
theorem iaExecGo_stop_records (e : Eudoxus) :
    ∀ (input : List Nat) (cur : Nat) (cb : CbData) (r : ExecOut),
      iaExecGo e eeFirstMatchCallback cur input cb = r →
      r.result = IaResult.iaStop →
      ∃ out, e.output r.state.cur = some out ∧ r.cb.match_len = out.length := by
  intro input
  induction input with
  | nil =>
    intro cur cb r heq hres
    simp only [iaExecGo] at heq
    subst heq
    simp at hres
  | cons b rest ih =>
    intro cur cb r heq hres
    simp only [iaExecGo] at heq
    split at heq
    · subst heq; simp at hres
    · rename_i s' hnext
      split at heq
      · exact ih _ _ _ heq hres
      · rename_i out hout
        split at heq
        · rename_i cb' hcb
          subst heq
          refine ⟨out, hout, ?_⟩
          unfold eeFirstMatchCallback at hcb
          split at hcb
          · simp at hcb
          · split at hcb <;> (injection hcb with h1 h2; rw [← h2])
        · subst heq; simp at hres
        · exact ih _ _ _ heq hres

/-- Storing back the value already stored under a key leaves the operator
state hash unchanged. -/
theorem hashSet_get_self :
    ∀ (h : List (String × EeTxData)) (k : String) (d : EeTxData),
      hashGet h k = some d → hashSet h k d = h := by
  intro h
  induction h with
  | nil => intro k d hg; simp [hashGet] at hg
  | cons p t ih =>
    intro k d hg
    obtain ⟨k', v⟩ := p
    simp only [hashGet] at hg
    simp only [hashSet]
    by_cases hk : k' = k
    · simp only [hk, if_true] at hg ⊢
      obtain rfl : v = d := Option.some_injective _ hg
      simp
    · simp only [hk, if_false] at hg ⊢
      simp [ih k d hg]

/-- Every entry of the hash after the destroy iteration has no live automaton
state. -/
theorem hashGet_map_destroy :
    ∀ (l : List (String × EeTxData)) (k : String) (d : EeTxData),
      hashGet (l.map (fun p => (p.1, destroyEntry p.2))) k = some d →
      d.eudoxus_state = none := by
  intro l
  induction l with
  | nil => intro k d hg; simp [hashGet] at hg
  | cons p t ih =>
    intro k d hg
    simp only [List.map, hashGet] at hg
    by_cases hk : p.1 = k
    · simp only [hk, if_true] at hg
      obtain rfl : destroyEntry p.2 = d := Option.some_injective _ hg
      rfl
    · simp only [hk, if_false] at hg
      exact ih k d hg

/-- When every probe answers handler-present or handler-absent, the wiring
loop succeeds and registers, in state order, exactly the states whose probe
succeeded, each under the dispatcher matching its hook shape. -/
theorem wireStates_all_ok (ht : Nat → HookType) (probe : Nat → Status) :
    ∀ (L : List Nat),
      (∀ s ∈ L, probe s = Status.ok ∨ probe s = Status.enoent) →
      wireStates ht probe L =
        (Status.ok,
          L.filterMap (fun s =>
            if probe s = Status.ok then
              (dispatcherFor (ht s)).map (fun d => (s, d))
            else none)) := by
  intro L
  induction L with
  | nil => intro _; simp [wireStates]
  | cons s rest ih =>
    intro hall
    have hs := hall s (List.mem_cons_self s rest)
    have hrest : ∀ x ∈ rest, probe x = Status.ok ∨ probe x = Status.enoent :=
      fun x hx => hall x (List.mem_cons_of_mem s hx)
    rcases hs with hs | hs
    · simp only [wireStates, hs, if_true, List.filterMap_cons]
      cases hd : dispatcherFor (ht s) with
      | none => simp [hd, ih hrest, hs]
      | some d => simp [hd, ih hrest, hs]
    · have hne : probe s ≠ Status.ok := by simp [hs]
      simp only [wireStates, hs, if_true, hne, if_false, List.filterMap_cons]
      simp [hne, ih hrest]

/-- Claim C1: for the one-shot full-match operator ee_match, a match is
accepted only if its length equals the entire input length (whenever the
full-match loop reports result 1, the recorded match length equals the input
length; shorter matches make it resume instead); in particular on input
"GET /" with a pattern matching "GET", ee returns result 1 while ee_match
returns result 0, the match length 3 differing from the input length 5. -/
theorem claim_C1 :
    (∀ (e : Eudoxus) (fuel : Nat) (st : IaState) (cb : CbData)
       (input : Option (List Nat)) (ilen : Nat) (out : LoopOut),
       eeLoopGo e fuel st cb input ilen true = out →
       out.result = 1 → out.cb.match_len = ilen) ∧
    (ee_operator_execute getOp (IbField.bytestr inputGETsp) none).status
      = Status.ok ∧
    (ee_operator_execute getOp (IbField.bytestr inputGETsp) none).result = 1 ∧
    (ee_match_operator_execute getOp (IbField.bytestr inputGETsp) none).status
      = Status.ok ∧
    (ee_match_operator_execute getOp (IbField.bytestr inputGETsp) none).result
      = 0 ∧
    inputGETsp.length = 5 ∧
    (ee_operator_execute getOp (IbField.bytestr inputGETsp) none).cb.match_len
      = 3 :=
  ⟨fun e => eeLoopGo_full_match_len e, by decide, by decide, by decide,
   by decide, by decide, by decide⟩

/-- Witness for claim C1: the full-match loop on the GET automaton over the
exact input "GET" reports result 1, so the recorded match length is the input
length 3. -/
theorem claim_C1_witness :
    (eeLoopGo getAutomaton 4 ⟨0, []⟩ ⟨none, 0⟩ (some [71, 69, 84]) 3
      true).cb.match_len = 3 :=
  claim_C1.1 getAutomaton 4 ⟨0, []⟩ ⟨none, 0⟩ (some [71, 69, 84]) 3 _ rfl
    (by decide)

/-- Claim C5: in a full-match scan, the first time the match callback fires
while a match is already recorded it resets the stored match length to 0 and
continues; when no match is recorded it records the output length and stops;
hence a scan pass that stops has recorded exactly one match, whose length is
the one the full-match comparison sees. -/
theorem claim_C5 :
    (∀ (cb : CbData) (out : List Nat), 0 < cb.match_len →
      eeFirstMatchCallback cb out = (IaCommand.cont, { cb with match_len := 0 })) ∧
    (∀ (cb : CbData) (out : List Nat), cb.match_len = 0 →
      (eeFirstMatchCallback cb out).1 = IaCommand.stop ∧
      (eeFirstMatchCallback cb out).2.match_len = out.length) ∧
    (∀ (e : Eudoxus) (input : List Nat) (cur : Nat) (cb : CbData)
       (r : ExecOut),
      iaExecGo e eeFirstMatchCallback cur input cb = r →
      r.result = IaResult.iaStop →
      ∃ out, e.output r.state.cur = some out ∧
        r.cb.match_len = out.length) := by
  refine ⟨?_, ?_, fun e input cur cb r => iaExecGo_stop_records e input cur cb r⟩
  · intro cb out h
    simp [eeFirstMatchCallback, h]
  · intro cb out h
    cases hc : cb.capture <;> simp [eeFirstMatchCallback, h, hc]

/-- Witness for claim C5: with a match of length 5 already recorded, the
callback resets the length to 0 and continues; with none recorded, it stops
having recorded the output length. -/
theorem claim_C5_witness :
    eeFirstMatchCallback ⟨none, 5⟩ [71] = (IaCommand.cont, ⟨none, 0⟩) ∧
    (eeFirstMatchCallback ⟨none, 0⟩ [71, 69, 84]).1 = IaCommand.stop ∧
    (eeFirstMatchCallback ⟨none, 0⟩ [71, 69, 84]).2.match_len = 3 := by
  refine ⟨claim_C5.1 ⟨none, 5⟩ [71] (by decide), ?_, ?_⟩
  · exact (claim_C5.2.1 ⟨none, 0⟩ [71, 69, 84] (by decide)).1
  · exact (claim_C5.2.1 ⟨none, 0⟩ [71, 69, 84] (by decide)).2

/-- Claim C9 counterexample: a number field is an unsupported field type for
the scalar matcher, yet executing ee on it returns invalid-argument, not
not-implemented as the claim states for every unsupported field type. -/
theorem claim_C9_counterexample :
    (ee_operator_execute getOp IbField.num none).status = Status.einval ∧
    Status.einval ≠ Status.enotimpl := by decide

/-- Claim C9 (amended): for every execution of ee, ee_match, or streaming
ee, a list input returns not-implemented without running the automaton,
leaving the result at 0 and the per-transaction data untouched; other
unsupported scalar field types (number, float, stream buffer) return
invalid-argument, likewise without running the automaton and with result
0. -/
theorem claim_C9 :
    (∀ (e : Eudoxus) (data : EeTxData) (full : Bool),
      ee_operator_execute_common e data IbField.list full =
        ⟨Status.enotimpl, 0, data⟩) ∧
    (∀ (op : EeOp) (cap : Option CaptureColl),
      (ee_operator_execute op IbField.list cap).status = Status.enotimpl ∧
      (ee_operator_execute op IbField.list cap).result = 0 ∧
      (ee_match_operator_execute op IbField.list cap).status
        = Status.enotimpl ∧
      (ee_match_operator_execute op IbField.list cap).result = 0) ∧
    (∀ (op : EeOp) (tx : Tx) (cap : Option CaptureColl),
      (ee_operator_execute_stream op tx IbField.list cap).status
        = Status.enotimpl ∧
      (ee_operator_execute_stream op tx IbField.list cap).result = 0) ∧
    (∀ (e : Eudoxus) (data : EeTxData) (full : Bool),
      ee_operator_execute_common e data IbField.num full =
        ⟨Status.einval, 0, data⟩ ∧
      ee_operator_execute_common e data IbField.float full =
        ⟨Status.einval, 0, data⟩ ∧
      ee_operator_execute_common e data IbField.sbuffer full =
        ⟨Status.einval, 0, data⟩) := by
  refine ⟨fun e data full => rfl, fun op cap => ⟨rfl, rfl, rfl, rfl⟩,
    ?_, fun e data full => ⟨rfl, rfl, rfl⟩⟩
  intro op tx cap
  obtain ⟨md⟩ := tx
  cases md with
  | none => exact ⟨rfl, rfl⟩
  | some h =>
    cases hg : hashGet h op.id <;>
      simp [ee_operator_execute_stream, get_ee_tx_data,
        get_or_create_operator_data_hash, hg, ee_operator_execute_common,
        fieldBytes]

/-- A fresh transaction: the module has stored nothing yet. -/
def tx0 : Tx := ⟨none⟩

/-- First streaming feed: the chunk "GE". -/
def streamFeed1 : StreamOut :=
  ee_operator_execute_stream getOp tx0 (IbField.bytestr [71, 69]) none

/-- Second streaming feed: the chunk "T /". -/
def streamFeed2 : StreamOut :=
  ee_operator_execute_stream getOp streamFeed1.tx
    (IbField.bytestr [84, 32, 47]) none

/-- Third streaming feed, arbitrary data: the automaton reports
end-of-automata here and the flag is latched. -/
def streamFeed3 : StreamOut :=
  ee_operator_execute_stream getOp streamFeed2.tx
    (IbField.bytestr [88, 89]) none

/-- Fourth streaming feed: arbitrary data after the latch. -/
def streamFeed4 : StreamOut :=
  ee_operator_execute_stream getOp streamFeed3.tx
    (IbField.bytestr [1, 2, 3]) none

/-- Claim C2: the streaming operator's execution state is retrieved from the
transaction's module-keyed store under the operator instance id (when an
entry exists, the call feeds the chunk into exactly that stored cursor and
writes the updated cursor back under the same id), and feeding "GE" then
"T /" to a streaming operator matching "GET" yields result 1 only on the
second feed, never on the first: the first feed stores the mid-pattern
cursor the second feed resumes from. -/
theorem claim_C2 :
    (∀ (op : EeOp) (tx : Tx) (h : List (String × EeTxData)) (d : EeTxData)
       (field : IbField) (cap : Option CaptureColl),
       tx.modData = some h → hashGet h op.id = some d →
       ee_operator_execute_stream op tx field cap =
         ⟨(ee_operator_execute_common op.eudoxus d field false).status,
          (ee_operator_execute_common op.eudoxus d field false).result,
          ⟨some (hashSet h op.id
            (ee_operator_execute_common op.eudoxus d field false).data)⟩⟩) ∧
    streamFeed1.status = Status.ok ∧
    streamFeed1.result = 0 ∧
    streamFeed1.tx.modData =
      some [("op-ee-1", ⟨some ⟨2, []⟩, ⟨none, 0⟩, false⟩)] ∧
    streamFeed2.status = Status.ok ∧
    streamFeed2.result = 1 := by
  refine ⟨?_, by decide, by decide, by decide, by decide, by decide⟩
  intro op tx h d field cap hm hg
  obtain ⟨md⟩ := tx
  cases hm
  simp [ee_operator_execute_stream, get_ee_tx_data,
    get_or_create_operator_data_hash, hg]

/-- Witness for claim C2: applying the retrieval clause to the state stored
by the first feed shows the second feed is the common helper run on the
stored mid-pattern cursor. -/
theorem claim_C2_witness :
    ee_operator_execute_stream getOp
      ⟨some [("op-ee-1", ⟨some ⟨2, []⟩, ⟨none, 0⟩, false⟩)]⟩
      (IbField.bytestr [84, 32, 47]) none =
      ⟨(ee_operator_execute_common getOp.eudoxus
          ⟨some ⟨2, []⟩, ⟨none, 0⟩, false⟩
          (IbField.bytestr [84, 32, 47]) false).status,
       (ee_operator_execute_common getOp.eudoxus
          ⟨some ⟨2, []⟩, ⟨none, 0⟩, false⟩
          (IbField.bytestr [84, 32, 47]) false).result,
       ⟨some (hashSet [("op-ee-1", ⟨some ⟨2, []⟩, ⟨none, 0⟩, false⟩)]
          "op-ee-1"
          (ee_operator_execute_common getOp.eudoxus
            ⟨some ⟨2, []⟩, ⟨none, 0⟩, false⟩
            (IbField.bytestr [84, 32, 47]) false).data)⟩⟩ :=
  claim_C2.1 getOp ⟨some [("op-ee-1", ⟨some ⟨2, []⟩, ⟨none, 0⟩, false⟩)]⟩
    [("op-ee-1", ⟨some ⟨2, []⟩, ⟨none, 0⟩, false⟩)]
    ⟨some ⟨2, []⟩, ⟨none, 0⟩, false⟩ (IbField.bytestr [84, 32, 47]) none rfl
    (by decide)

/-- Claim C3: once end-of-automata has been latched for an (instance,
transaction) pair, every further streaming feed of data (a string or byte
string chunk) is a no-op: it returns success with result 0 and leaves the
transaction unchanged.  Concretely, the feed after the match ("XY") latches
the flag and already returns ok with result 0, and the next feed is a
no-op. -/
theorem claim_C3 :
    (∀ (op : EeOp) (tx : Tx) (h : List (String × EeTxData)) (d : EeTxData)
       (field : IbField) (cap : Option CaptureColl) (bs : List Nat),
       tx.modData = some h → hashGet h op.id = some d →
       d.end_of_automata = true →
       (field = IbField.nulstr bs ∨ field = IbField.bytestr bs) →
       ee_operator_execute_stream op tx field cap = ⟨Status.ok, 0, tx⟩) ∧
    streamFeed3.status = Status.ok ∧
    streamFeed3.result = 0 ∧
    (hashGet (streamFeed3.tx.modData.getD []) "op-ee-1").map
      (fun d => d.end_of_automata) = some true ∧
    streamFeed4 = ⟨Status.ok, 0, streamFeed3.tx⟩ := by
  refine ⟨?_, by decide, by decide, by decide, by decide⟩
  intro op tx h d field cap bs hm hg hend hf
  obtain ⟨md⟩ := tx
  cases hm
  have hcommon :
      ee_operator_execute_common op.eudoxus d field false =
        ⟨Status.ok, 0, d⟩ := by
    rcases hf with hf | hf <;> subst hf <;>
      simp [ee_operator_execute_common, fieldBytes, hend]
  simp [ee_operator_execute_stream, get_ee_tx_data,
    get_or_create_operator_data_hash, hg, hcommon, hashSet_get_self h op.id d hg]

/-- Witness for claim C3: a latched entry makes a feed of arbitrary bytes a
no-op returning ok with result 0. -/
theorem claim_C3_witness :
    ee_operator_execute_stream getOp
      ⟨some [("op-ee-1", ⟨some ⟨3, [88, 89]⟩, ⟨none, 3⟩, true⟩)]⟩
      (IbField.bytestr [1, 2, 3]) none =
      ⟨Status.ok, 0,
       ⟨some [("op-ee-1", ⟨some ⟨3, [88, 89]⟩, ⟨none, 3⟩, true⟩)]⟩⟩ :=
  claim_C3.1 getOp ⟨some [("op-ee-1", ⟨some ⟨3, [88, 89]⟩, ⟨none, 3⟩, true⟩)]⟩
    [("op-ee-1", ⟨some ⟨3, [88, 89]⟩, ⟨none, 3⟩, true⟩)]
    ⟨some ⟨3, [88, 89]⟩, ⟨none, 3⟩, true⟩ (IbField.bytestr [1, 2, 3]) none
    [1, 2, 3] rfl (by decide) (by decide) (Or.inr rfl)

/-- A transaction holding one live streaming automaton state. -/
def txLive : Tx := ⟨some [("op-ee-1", ⟨some ⟨3, []⟩, ⟨none, 3⟩, false⟩)]⟩

/-- Claim C4 counterexample: when the transaction-finished handler itself
hits an allocation failure, it returns the allocation error with the stored
automaton state still live — the cleanup does not happen on this error
path. -/
theorem claim_C4_counterexample :
    (ee_tx_finished_handler false txLive).status = Status.ealloc ∧
    hashGet ((ee_tx_finished_handler false txLive).tx.modData.getD [])
      "op-ee-1" = some ⟨some ⟨3, []⟩, ⟨none, 3⟩, false⟩ := by decide

/-- Claim C4 (amended): when the transaction-finished event fires and the
handler's own temporary allocations succeed, every per-transaction automaton
state the streaming operator created for that transaction is iterated and
destroyed, and the handler returns ok; if the handler hits an allocation
failure it returns the allocation error without destroying the states. -/
theorem claim_C4 (tx : Tx) (k : String) (h' : List (String × EeTxData))
    (d : EeTxData) :
    (ee_tx_finished_handler true tx).status = Status.ok ∧
    ((ee_tx_finished_handler true tx).tx.modData = some h' →
      hashGet h' k = some d → d.eudoxus_state = none) := by
  obtain ⟨md⟩ := tx
  cases md with
  | none =>
    refine ⟨rfl, ?_⟩
    intro hm hg
    simp [ee_tx_finished_handler] at hm
  | some hash =>
    refine ⟨rfl, ?_⟩
    intro hm hg
    simp only [ee_tx_finished_handler, if_true] at hm
    obtain rfl : h' = hash.map (fun p => (p.1, destroyEntry p.2)) :=
      (Option.some_injective _ hm).symm
    exact hashGet_map_destroy hash k d hg

/-- Witness for claim C4: on the transaction holding one live state, the
successful handler run returns ok and the entry it leaves stored has its
automaton state destroyed. -/
theorem claim_C4_witness :
    (ee_tx_finished_handler true txLive).status = Status.ok ∧
    (⟨none, ⟨none, 3⟩, false⟩ : EeTxData).eudoxus_state = none :=
  ⟨(claim_C4 txLive "op-ee-1" [("op-ee-1", ⟨none, ⟨none, 3⟩, false⟩)]
      ⟨none, ⟨none, 3⟩, false⟩).1,
   (claim_C4 txLive "op-ee-1" [("op-ee-1", ⟨none, ⟨none, 3⟩, false⟩)]
      ⟨none, ⟨none, 3⟩, false⟩).2 (by decide) (by decide)⟩

/-- Claim C6 (evaluation at the failing inputs): in modlua_logevent, when the
runtime acquire succeeds and then the Lua stack check fails, or the modlua
global turns out nil, the function returns directly with the acquired
runtime never released — contradicting the rule that every successful
acquire is released on every exit path. -/
theorem claim_C6 :
    modlua_logevent { logeventAllOk with checkstack_ok := false } =
      ⟨Status.eother, true, false⟩ ∧
    modlua_logevent { logeventAllOk with modlua_is_nil := true } =
      ⟨Status.einval, true, false⟩ ∧
    modlua_logevent logeventAllOk = ⟨Status.ok, true, true⟩ := by decide

/-- Claim C8: loading a precompiled automaton under a symbolic name that is
already defined fails with already-exists and leaves the pattern table
unchanged; instantiating an ee/ee_match operator that references an
undefined pattern name fails with not-found. -/
theorem claim_C8 (h : List (List Nat × Eudoxus)) (pattern_name : List Nat)
    (accessOk createOk cleanupOk : Bool) (automaton : Eudoxus)
    (parameters : List Nat) (uuid : String) :
    (patternHashGet h pattern_name ≠ none →
      load_eudoxus_pattern_param2 h pattern_name accessOk createOk cleanupOk
        automaton = (Status.eexist, h)) ∧
    (patternHashGet h parameters = none →
      ee_operator_create h parameters uuid = (Status.enoent, none)) := by
  constructor
  · intro hne
    cases hg : patternHashGet h pattern_name with
    | none => exact absurd hg hne
    | some e => simp [load_eudoxus_pattern_param2, hg]
  · intro hg
    simp [ee_operator_create, hg]

/-- Witness for claim C8: reloading the already-defined name "pat" (queried
as "PAT", the table being case-insensitive) fails with already-exists leaving
the table unchanged, and instantiating against the undefined name "xy" fails
with not-found. -/
theorem claim_C8_witness :
    load_eudoxus_pattern_param2 [([112, 97, 116], getAutomaton)]
      [80, 65, 84] true true true getAutomaton =
      (Status.eexist, [([112, 97, 116], getAutomaton)]) ∧
    ee_operator_create [([112, 97, 116], getAutomaton)] [120, 121] "uuid-1" =
      (Status.enoent, none) :=
  ⟨(claim_C8 [([112, 97, 116], getAutomaton)] [80, 65, 84] true true true
      getAutomaton [120, 121] "uuid-1").1
      (by simp [patternHashGet, show nocaseEq [112, 97, 116] [80, 65, 84]
            = true from by decide]),
   (claim_C8 [([112, 97, 116], getAutomaton)] [80, 65, 84] true true true
      getAutomaton [120, 121] "uuid-1").2
      (by simp [patternHashGet, show nocaseEq [112, 97, 116] [120, 121]
            = false from by decide])⟩

/-- A hook-shape assignment for the claim C7 witness: a null, a transaction,
an invalid and a header state. -/
def wHt : Nat → HookType := fun s =>
  if s = 0 then HookType.null
  else if s = 1 then HookType.tx
  else if s = 2 then HookType.invalid
  else HookType.header

/-- A probe outcome for the claim C7 witness: every state has a handler
except state 1. -/
def wProbe : Nat → Status := fun s =>
  if s = 1 then Status.enoent else Status.ok

/-- Claim C7: when a Lua module is loaded, the bridge probes every taxonomy
event for a handler and registers a native hook exactly when the probe
succeeds, with the dispatcher matching that event's hook shape; the
dedicated log-event handler is probed for and registered separately, exactly
when its probe succeeds. -/
theorem claim_C7 (n : Nat) (ht : Nat → HookType) (probe : Nat → Status)
    (probeLog : Status)
    (hp : ∀ s ∈ List.range n, probe s = Status.ok ∨ probe s = Status.enoent) :
    (modlua_module_load_wire_callbacks n ht probe probeLog).status
      = Status.ok ∧
    ((modlua_module_load_wire_callbacks n ht probe
        probeLog).logevent_registered = true ↔ probeLog = Status.ok) ∧
    (modlua_module_load_wire_callbacks n ht probe probeLog).hooks =
      (List.range n).filterMap (fun s =>
        if probe s = Status.ok then
          (dispatcherFor (ht s)).map (fun d => (s, d))
        else none) ∧
    (∀ s d,
      (s, d) ∈ (modlua_module_load_wire_callbacks n ht probe probeLog).hooks →
      dispatcherFor (ht s) = some d ∧ probe s = Status.ok) := by
  have hw := wireStates_all_ok ht probe (List.range n) hp
  refine ⟨?_, ?_, ?_, ?_⟩
  · simp [modlua_module_load_wire_callbacks, hw]
  · simp [modlua_module_load_wire_callbacks, decide_eq_true_eq]
  · simp [modlua_module_load_wire_callbacks, hw]
  · intro s d hm
    have hm' :
        (s, d) ∈ (List.range n).filterMap (fun s =>
          if probe s = Status.ok then
            (dispatcherFor (ht s)).map (fun d => (s, d))
          else none) := by
      simpa [modlua_module_load_wire_callbacks, hw] using hm
    rcases List.mem_filterMap.mp hm' with ⟨a, _, hfa⟩
    by_cases hpa : probe a = Status.ok
    · simp only [hpa, if_true] at hfa
      cases hda : dispatcherFor (ht a) with
      | none => simp [hda] at hfa
      | some d0 =>
        rw [hda] at hfa
        simp only [Option.map_some'] at hfa
        have h1 : a = s := congrArg Prod.fst (Option.some_injective _ hfa)
        have h2 : d0 = d := congrArg Prod.snd (Option.some_injective _ hfa)
        subst h1
        subst h2
        exact ⟨hda, hpa⟩
    · simp [hpa] at hfa

/-- Witness for claim C7: with four states (shapes null, tx, invalid,
header) and a probe that succeeds everywhere but state 1, wiring succeeds,
registers the logevent dispatcher, and registers exactly states 0 and 3
under their shape dispatchers. -/
theorem claim_C7_witness :
    (modlua_module_load_wire_callbacks 4 wHt wProbe Status.ok).status
      = Status.ok ∧
    ((modlua_module_load_wire_callbacks 4 wHt wProbe
      Status.ok).logevent_registered = true ↔ Status.ok = Status.ok) ∧
    (modlua_module_load_wire_callbacks 4 wHt wProbe Status.ok).hooks =
      (List.range 4).filterMap (fun s =>
        if wProbe s = Status.ok then
          (dispatcherFor (wHt s)).map (fun d => (s, d))
        else none) :=
  ⟨(claim_C7 4 wHt wProbe Status.ok (by decide)).1,
   (claim_C7 4 wHt wProbe Status.ok (by decide)).2.1,
   (claim_C7 4 wHt wProbe Status.ok (by decide)).2.2.1⟩

/-- First streaming feed with a capture collection supplied. -/
def captureFeed1 : StreamOut :=
  ee_operator_execute_stream getOp tx0 (IbField.bytestr [71, 69])
    (some ⟨some [9]⟩)

/-- Second streaming feed, supplying a different capture collection, which
the stream path must ignore. -/
def captureFeed2 : StreamOut :=
  ee_operator_execute_stream getOp captureFeed1.tx (IbField.bytestr [84])
    (some ⟨some [8]⟩)

/-- Claim C10: for a given (operator instance, transaction) pair, the
capture collection passed to the first streaming call is stored in the
per-transaction state and is the one the match callback writes to on later
chunk feeds; the capture argument of any subsequent streaming call for that
pair is ignored (the call's outcome does not depend on it at all). -/
theorem claim_C10 :
    (∀ (op : EeOp) (tx : Tx) (h : List (String × EeTxData)) (d : EeTxData)
       (field : IbField) (cap1 cap2 : Option CaptureColl),
       tx.modData = some h → hashGet h op.id = some d →
       ee_operator_execute_stream op tx field cap1 =
         ee_operator_execute_stream op tx field cap2) ∧
    (hashGet (captureFeed1.tx.modData.getD []) "op-ee-1").map
      (fun d => d.ee_cbdata.capture) = some (some ⟨some [9]⟩) ∧
    captureFeed2.result = 1 ∧
    (hashGet (captureFeed2.tx.modData.getD []) "op-ee-1").map
      (fun d => d.ee_cbdata.capture) = some (some ⟨some [71, 69, 84]⟩) := by
  refine ⟨?_, by decide, by decide, by decide⟩
  intro op tx h d field cap1 cap2 hm hg
  obtain ⟨md⟩ := tx
  cases hm
  simp [ee_operator_execute_stream, get_ee_tx_data,
    get_or_create_operator_data_hash, hg]

/-- Witness for claim C10: on the state stored by the first capture feed,
the second feed produces the same outcome whether it passes a different
capture collection or none at all. -/
theorem claim_C10_witness :
    ee_operator_execute_stream getOp
      ⟨some [("op-ee-1", ⟨some ⟨2, []⟩, ⟨some ⟨some [9]⟩, 0⟩, false⟩)]⟩
      (IbField.bytestr [84]) (some ⟨some [8]⟩) =
    ee_operator_execute_stream getOp
      ⟨some [("op-ee-1", ⟨some ⟨2, []⟩, ⟨some ⟨some [9]⟩, 0⟩, false⟩)]⟩
      (IbField.bytestr [84]) none :=
  claim_C10.1 getOp
    ⟨some [("op-ee-1", ⟨some ⟨2, []⟩, ⟨some ⟨some [9]⟩, 0⟩, false⟩)]⟩
    [("op-ee-1", ⟨some ⟨2, []⟩, ⟨some ⟨some [9]⟩, 0⟩, false⟩)]
    ⟨some ⟨2, []⟩, ⟨some ⟨some [9]⟩, 0⟩, false⟩ (IbField.bytestr [84])
    (some ⟨some [8]⟩) none rfl (by decide)
